import Mathlib

/-!
Verification of the pcap DNS-response rewriter (`bro.py`).

The script loads a pcap file, rewrites the `rdata` field of every A-type
resource record of every DNS response to a target address derived from a
fixed numeric identifier, invalidates IP/UDP length and checksum fields of
modified packets, and writes the packets back in order.

We embed the script shallowly: packets become a Lean structure with
optional IP, UDP and DNS layers; the per-packet loop body becomes a pure
function returning `Option` (`none` models the IndexError raised when a
DNS section's declared count exceeds the number of parsed records); the
whole run becomes a fold over the packet list.
-/

/-- A DNS resource record: a type code (1 = A record), the address/data
field `rdata`, and the remaining wire fields (owner name, class, ttl). -/
structure RR where
  rtype : Nat
  rdata : String
  rname : String
  rclass : Nat
  ttl : Nat
deriving Repr, DecidableEq

/-- The DNS layer of a packet: query/response flag `qr`, the three
resource-record sections with their declared counts, the question section
and the remaining header flags. -/
structure DNSMsg where
  qr : Nat
  ancount : Nat
  nscount : Nat
  arcount : Nat
  an : List RR
  ns : List RR
  ar : List RR
  qd : List String
  flags : Nat
deriving Repr, DecidableEq

/-- The IP layer: addresses, ttl, and the explicit length and checksum
fields (`none` models a deleted field, recomputed on serialization). -/
structure IPLayer where
  src : String
  dst : String
  ttl : Nat
  len : Option Nat
  chksum : Option Nat
deriving Repr, DecidableEq

/-- The UDP layer: ports and the explicit length and checksum fields
(`none` models a deleted field, recomputed on serialization). -/
structure UDPLayer where
  sport : Nat
  dport : Nat
  len : Option Nat
  chksum : Option Nat
deriving Repr, DecidableEq

/-- A captured packet: capture timestamp, link-layer fields (abstracted),
and the optional IP, UDP and DNS layers. -/
structure Packet where
  time : Int
  link : Nat
  ip : Option IPLayer
  udp : Option UDPLayer
  dns : Option DNSMsg
deriving Repr, DecidableEq

/-- Python `range(start, stop, step)` for a positive step. -/
def pyRange (start stop step : Nat) : List Nat :=
  List.range' start ((stop - start + step - 1) / step) step

/-- Python slice `s[i:i+n]` on a character list (clamped, as in Python). -/
def pySlice (s : List Char) (i n : Nat) : List Char :=
  (s.drop i).take n

/-- The function `convert_sciper_to_ip(sciper)`:
`split_sciper = [sciper[i:i+n] for i in range(0, len(sciper), n)]` with
`n = 2`, then `"00." + '.'.join(split_sciper)`. -/
def convert_sciper_to_ip (sciper : String) : String :=
  let n := 2
  let split_sciper :=
    (pyRange 0 sciper.length n).map (fun i => String.mk (pySlice sciper.data i n))
  "00." ++ String.intercalate "." split_sciper

/-- The hardcoded identifier of the script. -/
def SCIPER : String := "377690"

/-- The helper `fix_section(section, count)`: for `i in range(count)`, take
`rr = section[i]`; if `rr.type == 1` set `rr.rdata = new_ip` and raise the
`modified` flag.  `none` models the IndexError raised by `section[i]` when
`i` is out of range.  Returns the updated section and the flag
contribution of this section. -/
def fix_section (new_ip : String) : List RR → Nat → Option (List RR × Bool)
  | sec, 0 => some (sec, false)
  | [], _ + 1 => none
  | rr :: rest, n + 1 =>
    match fix_section new_ip rest n with
    | none => none
    | some (rest', m) =>
      if rr.rtype == 1 then some ({ rr with rdata := new_ip } :: rest', true)
      else some (rr :: rest', m)

/-- The loop body of `modify_pcap` for one packet.  Returns the packet to
append to `new_pkts` together with the `modified` flag, or `none` if
`fix_section` raised.  A packet without a DNS layer, or whose DNS layer
has `qr != 1`, is passed through unchanged; otherwise the three sections
are rewritten, and if anything was modified the IP/UDP length and checksum
fields are deleted and the saved capture timestamp is restored. -/
def processPacket (new_ip : String) (packet : Packet) : Option (Packet × Bool) :=
  match packet.dns with
  | none => some (packet, false)
  | some dns =>
    if dns.qr == 1 then
      let original_time := packet.time
      match fix_section new_ip dns.an dns.ancount with
      | none => none
      | some (an', m1) =>
        match fix_section new_ip dns.ns dns.nscount with
        | none => none
        | some (ns', m2) =>
          match fix_section new_ip dns.ar dns.arcount with
          | none => none
          | some (ar', m3) =>
            let modified := m1 || m2 || m3
            if modified then
              some ({ packet with
                        dns := some { dns with an := an', ns := ns', ar := ar' },
                        ip := packet.ip.map fun ipl =>
                          { ipl with len := none, chksum := none },
                        udp := packet.udp.map fun u =>
                          { u with len := none, chksum := none },
                        time := original_time }, true)
            else some (packet, false)
    else some (packet, false)

/-- The packet loop of `modify_pcap`: process each packet in order,
appending the result to the output list; an error anywhere aborts the
whole run (`none`). -/
def modify_list (new_ip : String) : List Packet → Option (List Packet)
  | [] => some []
  | packet :: rest =>
    match processPacket new_ip packet with
    | none => none
    | some (p', _) =>
      match modify_list new_ip rest with
      | none => none
      | some rest' => some (p' :: rest')

/-- The function `modify_pcap` on an already-loaded packet list: derives the target
address from the hardcoded `SCIPER` and processes every packet; `some`
models a successful run whose result is written by `wrpcap`. -/
def modify_pcap (pkts : List Packet) : Option (List Packet) :=
  modify_list (convert_sciper_to_ip SCIPER) pkts

/-!
Spec-side definitions, used to state the properties of the design
document against the embedded code.
-/

/-- Spec-side chunking: partition a string into consecutive 2-character
chunks, the final chunk having 1 character when the length is odd. -/
def chunkPairs : List Char → List (List Char)
  | [] => []
  | [c] => [[c]]
  | a :: b :: rest => [a, b] :: chunkPairs rest

/-- Spec-side address derivation (`derive_address` of the design
document): join the 2-character chunks with `.` and prepend `00.`. -/
def derive_address (identifier : String) : String :=
  "00." ++ String.intercalate "." ((chunkPairs identifier.data).map String.mk)

/-- The Response Classifier of the spec: the packet has a DNS layer whose
query/response flag equals the response value 1. -/
def isResponse (p : Packet) : Bool :=
  match p.dns with
  | none => false
  | some d => d.qr == 1

/-- The packet contains at least one A record (type code 1) in its
answer, authority or additional section. -/
def hasA (p : Packet) : Bool :=
  match p.dns with
  | none => false
  | some d => (d.an ++ d.ns ++ d.ar).any fun rr => rr.rtype == 1

/-- Well-formedness of a parsed packet: each DNS section's declared count
equals the number of parsed records (the invariant produced by a
successful parse of the DNS wire format). -/
def packetWF (p : Packet) : Bool :=
  match p.dns with
  | none => true
  | some d =>
    d.ancount == d.an.length && d.nscount == d.ns.length && d.arcount == d.ar.length

/-- Rewrite one record: an A record gets its `rdata` overwritten with the
target address, any other record is untouched. -/
def rewriteA (new_ip : String) (rr : RR) : RR :=
  if rr.rtype == 1 then { rr with rdata := new_ip } else rr

/-- Delete the explicit length and checksum fields of an IP header. -/
def clearIP (ipl : IPLayer) : IPLayer :=
  { ipl with len := none, chksum := none }

/-- Delete the explicit length and checksum fields of a UDP header. -/
def clearUDP (u : UDPLayer) : UDPLayer :=
  { u with len := none, chksum := none }

/-- The full effect on a packet the Rewriter modifies, spec-side: every A
record of every section has its `rdata` overwritten with the target
address, the IP/UDP length and checksum fields are deleted, everything
else (timestamp included) is unchanged. -/
def rewritePacket (new_ip : String) (p : Packet) : Packet :=
  { p with
    dns := p.dns.map fun d =>
      { d with an := d.an.map (rewriteA new_ip), ns := d.ns.map (rewriteA new_ip),
               ar := d.ar.map (rewriteA new_ip) },
    ip := p.ip.map clearIP,
    udp := p.udp.map clearUDP }

/-- Relation stating that `new` is `old` with every A record's `rdata` overwritten with the
target address and every non-A record unaltered, position by position. -/
def sectionRewritten (new_ip : String) (old new : List RR) : Prop :=
  new.length = old.length ∧
  ∀ i (h : i < old.length) (h' : i < new.length),
    ((old.get ⟨i, h⟩).rtype = 1 →
      new.get ⟨i, h'⟩ = { old.get ⟨i, h⟩ with rdata := new_ip }) ∧
    ((old.get ⟨i, h⟩).rtype ≠ 1 → new.get ⟨i, h'⟩ = old.get ⟨i, h⟩)

/-- In the three DNS sections of `p'`, every A record's `rdata` equals the
target address (the record otherwise unaltered) and every non-A record is
unaltered, relative to `p`. -/
def recordsRewritten (new_ip : String) (p p' : Packet) : Prop :=
  ∀ d d', p.dns = some d → p'.dns = some d' →
    sectionRewritten new_ip d.an d'.an ∧ sectionRewritten new_ip d.ns d'.ns ∧
    sectionRewritten new_ip d.ar d'.ar

/-- Frame of one section: only A records among the first `count` records
have their `rdata` overwritten; every other record (non-A, or beyond the
declared count) is byte-for-byte unchanged. -/
def sectionFrame (new_ip : String) (count : Nat) (old new : List RR) : Prop :=
  new.length = old.length ∧
  ∀ i (h : i < old.length) (h' : i < new.length),
    new.get ⟨i, h'⟩ =
      if i < count ∧ (old.get ⟨i, h⟩).rtype = 1
      then { old.get ⟨i, h⟩ with rdata := new_ip }
      else old.get ⟨i, h⟩

/-- The output list contains exactly one packet per input packet, in
order: the packet at each position is the result of processing the input
packet at the same position. -/
def corresponds (new_ip : String) : List Packet → List Packet → Prop
  | [], [] => True
  | p :: ps, q :: qs =>
    (processPacket new_ip p).map Prod.fst = some q ∧ corresponds new_ip ps qs
  | _, _ => False

/-- Modelled from the spec: the capture I/O contract (`rdpcap`/`load`),
which is not part of the repository's source.  Loading either yields the
ordered packet sequence, or fails with a file-access error (path
unreadable) or a parse error (not a valid capture format). -/
inductive LoadResult where
  | ok (pkts : List Packet)
  | fileAccessError
  | parseError
deriving Repr, DecidableEq

/-- Modelled from the spec: the whole run.  A load failure propagates and
aborts the run; otherwise the packets are processed and, only on full
success, written out (`some` = output file produced with these packets,
`none` = no output file). -/
def runRewriter : LoadResult → Option (List Packet)
  | LoadResult.ok pkts => modify_pcap pkts
  | LoadResult.fileAccessError => none
  | LoadResult.parseError => none

/-!
Concrete packets, used to instantiate the theorems.
-/

/-- An A record carrying the address of the end-to-end scenario. -/
def rrA : RR :=
  { rtype := 1, rdata := "93.184.216.34", rname := "example.com", rclass := 1, ttl := 300 }

/-- A non-A record (an NS record, type code 2). -/
def rrNS : RR :=
  { rtype := 2, rdata := "ns1.example.com", rname := "example.com", rclass := 1, ttl := 300 }

/-- A well-formed DNS response with one A record and one NS record. -/
def sampleDNS : DNSMsg :=
  { qr := 1, ancount := 1, nscount := 1, arcount := 0, an := [rrA], ns := [rrNS],
    ar := [], qd := ["example.com"], flags := 0 }

/-- The target address the script derives from its hardcoded identifier. -/
def target_ip : String := convert_sciper_to_ip SCIPER

/-- A DNS-response packet with IP and UDP layers. -/
def samplePkt : Packet :=
  { time := 1000, link := 7,
    ip := some { src := "10.0.0.1", dst := "10.0.0.2", ttl := 64,
                 len := some 120, chksum := some 3 },
    udp := some { sport := 53, dport := 40000, len := some 100, chksum := some 5 },
    dns := some sampleDNS }

/-- A packet without a DNS layer. -/
def plainPkt : Packet := { time := 2, link := 0, ip := none, udp := none, dns := none }

/-- A DNS query (`qr = 0`) that carries an A record. -/
def queryPkt : Packet :=
  { time := 3, link := 1,
    ip := some { src := "10.0.0.2", dst := "10.0.0.1", ttl := 64,
                 len := some 60, chksum := some 9 },
    udp := some { sport := 40000, dport := 53, len := some 40, chksum := some 11 },
    dns := some { qr := 0, ancount := 1, nscount := 0, arcount := 0, an := [rrA],
                  ns := [], ar := [], qd := ["example.com"], flags := 0 } }

/-- A well-formed DNS response with no A record in any section. -/
def noAPkt : Packet :=
  { time := 4, link := 2, ip := none, udp := none,
    dns := some { qr := 1, ancount := 0, nscount := 1, arcount := 0, an := [],
                  ns := [rrNS], ar := [], qd := [], flags := 0 } }

/-- A truncated DNS response: the declared answer count exceeds the number
of parsed records. -/
def truncatedPkt : Packet :=
  { time := 5, link := 3, ip := none, udp := none,
    dns := some { qr := 1, ancount := 2, nscount := 0, arcount := 0, an := [rrA],
                  ns := [], ar := [], qd := [], flags := 0 } }

/-!
Helper lemmas.
-/

theorem map_range'_shift {α : Type} (f : Nat → α) (n : Nat) :
    ∀ s step : Nat,
      (List.range' (s + step) n step).map f =
        (List.range' s n step).map fun i => f (i + step) := by
  induction n with
  | zero => intro s step; rfl
  | succ n ih =>
    intro s step
    simp only [List.range'_succ, List.map_cons, Nat.add_right_comm]
    exact congrArg _ (ih (s + step) step)

theorem pyChunks_eq (s : List Char) :
    (pyRange 0 s.length 2).map (fun i => pySlice s i 2) = chunkPairs s := by
  induction s using chunkPairs.induct with
  | case1 => rfl
  | case2 c =>
    have h1 : pyRange 0 [c].length 2 = [0] := by simp [pyRange, List.range']
    rw [h1]; rfl
  | case3 a b rest ih =>
    have hlen : ((a :: b :: rest).length - 0 + 2 - 1) / 2 =
        (rest.length - 0 + 2 - 1) / 2 + 1 := by
      simp only [List.length_cons]; omega
    simp only [pyRange] at ih ⊢
    rw [hlen, List.range'_succ]
    simp only [List.map_cons]
    have hshift : (List.range' (0 + 2) ((rest.length - 0 + 2 - 1) / 2) 2).map
          (fun i => pySlice (a :: b :: rest) i 2) =
        (List.range' 0 ((rest.length - 0 + 2 - 1) / 2) 2).map
          fun i => pySlice (a :: b :: rest) (i + 2) 2 :=
      map_range'_shift _ _ 0 2
    rw [hshift]
    have hsl : (fun i => pySlice (a :: b :: rest) (i + 2) 2) =
        fun i => pySlice rest i 2 := rfl
    rw [hsl, ih]
    rfl

theorem fix_section_spec (new_ip : String) :
    ∀ (sec : List RR) (count : Nat), count ≤ sec.length →
      fix_section new_ip sec count =
        some ((sec.take count).map (rewriteA new_ip) ++ sec.drop count,
          (sec.take count).any fun rr => rr.rtype == 1) := by
  intro sec
  induction sec with
  | nil =>
    intro count h
    have h0 : count = 0 := Nat.le_zero.mp h
    subst h0; rfl
  | cons rr rest ih =>
    intro count h
    cases count with
    | zero => rfl
    | succ n =>
      have hn : n ≤ rest.length := by
        simpa using Nat.succ_le_succ_iff.mp (by simpa using h)
      simp only [fix_section, ih n hn, List.take_succ_cons, List.map_cons,
        List.drop_succ_cons, List.any_cons, List.cons_append]
      by_cases ht : (rr.rtype == 1) = true
      · simp [ht, rewriteA]
      · simp only [Bool.not_eq_true] at ht
        simp [ht, rewriteA]

theorem fix_section_overrun (new_ip : String) :
    ∀ (sec : List RR) (count : Nat), sec.length < count →
      fix_section new_ip sec count = none := by
  intro sec
  induction sec with
  | nil =>
    intro count h
    cases count with
    | zero => exact absurd h (by simp)
    | succ n => rfl
  | cons rr rest ih =>
    intro count h
    cases count with
    | zero => exact absurd h (by simp)
    | succ n =>
      have hn : rest.length < n := by simpa using h
      simp [fix_section, ih n hn]

theorem fix_section_some_le (new_ip : String) (sec : List RR) (count : Nat)
    (r : List RR × Bool) (h : fix_section new_ip sec count = some r) :
    count ≤ sec.length := by
  by_contra hc
  rw [fix_section_overrun new_ip sec count (Nat.lt_of_not_le hc)] at h
  exact Option.noConfusion h

theorem fix_section_idem (new_ip : String) :
    ∀ (sec : List RR) (count : Nat) (sec' : List RR) (m : Bool),
      fix_section new_ip sec count = some (sec', m) →
      fix_section new_ip sec' count = some (sec', m) := by
  intro sec
  induction sec with
  | nil =>
    intro count sec' m h
    cases count with
    | zero =>
      simp only [fix_section, Option.some.injEq, Prod.mk.injEq] at h
      obtain ⟨h1, h2⟩ := h; subst h1; subst h2; rfl
    | succ n => exact absurd h (by simp [fix_section])
  | cons rr rest ih =>
    intro count sec' m h
    cases count with
    | zero =>
      simp only [fix_section, Option.some.injEq, Prod.mk.injEq] at h
      obtain ⟨h1, h2⟩ := h; subst h1; subst h2; rfl
    | succ n =>
      simp only [fix_section] at h
      cases hr : fix_section new_ip rest n with
      | none => rw [hr] at h; exact absurd h (by simp)
      | some pr =>
        obtain ⟨rest', m'⟩ := pr
        rw [hr] at h
        simp only at h
        by_cases ht : (rr.rtype == 1) = true
        · rw [if_pos ht] at h
          simp only [Option.some.injEq, Prod.mk.injEq] at h
          obtain ⟨h1, h2⟩ := h; subst h1; subst h2
          simp only [fix_section, ih n rest' m' hr]
          simp [ht]
        · rw [if_neg ht] at h
          simp only [Option.some.injEq, Prod.mk.injEq] at h
          obtain ⟨h1, h2⟩ := h; subst h1; subst h2
          simp only [fix_section, ih n rest' m' hr]
          simp [ht]

theorem fix_section_full (new_ip : String) (sec : List RR) :
    fix_section new_ip sec sec.length =
      some (sec.map (rewriteA new_ip), sec.any fun rr => rr.rtype == 1) := by
  simpa using fix_section_spec new_ip sec sec.length (le_refl _)

theorem processPacket_wf (new_ip : String) (p : Packet) (hwf : packetWF p = true) :
    processPacket new_ip p =
      if isResponse p && hasA p then some (rewritePacket new_ip p, true)
      else some (p, false) := by
  cases hp : p.dns with
  | none => simp [processPacket, isResponse, hp]
  | some d =>
    simp only [packetWF, hp, Bool.and_eq_true, beq_iff_eq] at hwf
    obtain ⟨⟨h1, h2⟩, h3⟩ := hwf
    have hresp : isResponse p = (d.qr == 1) := by simp [isResponse, hp]
    have hA : hasA p = ((d.an.any fun rr => rr.rtype == 1) ||
        (d.ns.any fun rr => rr.rtype == 1) || (d.ar.any fun rr => rr.rtype == 1)) := by
      simp [hasA, hp, List.any_append, Bool.or_assoc]
    simp only [processPacket, hp, h1, h2, h3, fix_section_full, hresp, hA]
    by_cases hq : (d.qr == 1) = true
    · simp only [hq, Bool.true_and]
      by_cases hm : ((d.an.any fun rr => rr.rtype == 1) ||
          (d.ns.any fun rr => rr.rtype == 1) || (d.ar.any fun rr => rr.rtype == 1)) = true
      · simp only [hm, if_true]
        simp only [rewritePacket, hp, Option.map_some']
        simp [clearIP, clearUDP, Packet.mk.injEq, DNSMsg.mk.injEq, h1, h2, h3,
          Option.map]
      · simp only [Bool.not_eq_true] at hm
        simp [hm]
    · simp only [Bool.not_eq_true] at hq
      simp [hq]

theorem processPacket_pass (new_ip : String) (p : Packet) (h : isResponse p = false) :
    processPacket new_ip p = some (p, false) := by
  cases hp : p.dns with
  | none => simp [processPacket, hp]
  | some d =>
    simp only [isResponse, hp] at h
    simp [processPacket, hp, h]

theorem sectionRewritten_map (new_ip : String) (sec : List RR) :
    sectionRewritten new_ip sec (sec.map (rewriteA new_ip)) := by
  refine ⟨by simp, fun i h h' => ?_⟩
  constructor
  · intro ht
    simp only [List.get_eq_getElem] at ht ⊢
    simp [rewriteA, ht]
  · intro ht
    simp only [List.get_eq_getElem] at ht ⊢
    simp [rewriteA, ht]

theorem sectionFrame_parts (new_ip : String) (count : Nat) (sec : List RR)
    (h : count ≤ sec.length) :
    sectionFrame new_ip count sec
      ((sec.take count).map (rewriteA new_ip) ++ sec.drop count) := by
  have hlen : ((sec.take count).map (rewriteA new_ip) ++ sec.drop count).length =
      sec.length := by simp; omega
  refine ⟨hlen, fun i hi hi' => ?_⟩
  by_cases hc : i < count
  · have hl : i < ((sec.take count).map (rewriteA new_ip)).length := by simp; omega
    rw [List.get_eq_getElem, List.getElem_append_left hl]
    simp only [List.getElem_map]
    rw [List.getElem_take]
    simp only [rewriteA, hc, true_and, List.get_eq_getElem]
    by_cases ht : (sec[i]).rtype = 1
    · simp [ht]
    · simp [ht]
  · have hl : ¬ i < ((sec.take count).map (rewriteA new_ip)).length := by simp; omega
    rw [List.get_eq_getElem, List.getElem_append_right (by simp; omega)]
    simp only [List.length_map, List.length_take]
    rw [List.getElem_drop]
    have : count ⊓ sec.length = count := by omega
    simp only [this]
    have hcf : ¬ (i < count ∧ (sec.get ⟨i, hi⟩).rtype = 1) := fun hx => hc hx.1
    rw [if_neg hcf]
    congr 1
    omega

theorem fix_section_frame (new_ip : String) (sec : List RR) (count : Nat)
    (sec' : List RR) (m : Bool) (h : fix_section new_ip sec count = some (sec', m)) :
    sectionFrame new_ip count sec sec' := by
  have hle := fix_section_some_le new_ip sec count (sec', m) h
  rw [fix_section_spec new_ip sec count hle] at h
  simp only [Option.some.injEq, Prod.mk.injEq] at h
  obtain ⟨h1, h2⟩ := h
  subst h1
  exact sectionFrame_parts new_ip count sec hle

theorem processPacket_modified (new_ip : String) (p p' : Packet)
    (h : processPacket new_ip p = some (p', true)) :
    ∃ d an' ns' ar' m1 m2 m3,
      p.dns = some d ∧ (d.qr == 1) = true ∧
      fix_section new_ip d.an d.ancount = some (an', m1) ∧
      fix_section new_ip d.ns d.nscount = some (ns', m2) ∧
      fix_section new_ip d.ar d.arcount = some (ar', m3) ∧
      (m1 || m2 || m3) = true ∧
      p' = { p with
               dns := some { d with an := an', ns := ns', ar := ar' },
               ip := p.ip.map clearIP,
               udp := p.udp.map clearUDP } := by
  cases hp : p.dns with
  | none => simp [processPacket, hp] at h
  | some d =>
    simp only [processPacket, hp] at h
    by_cases hq : (d.qr == 1) = true
    · rw [if_pos hq] at h
      cases hr1 : fix_section new_ip d.an d.ancount with
      | none => simp [hr1] at h
      | some r1 =>
        obtain ⟨an', m1⟩ := r1
        rw [hr1] at h
        simp only at h
        cases hr2 : fix_section new_ip d.ns d.nscount with
        | none => simp [hr2] at h
        | some r2 =>
          obtain ⟨ns', m2⟩ := r2
          rw [hr2] at h
          simp only at h
          cases hr3 : fix_section new_ip d.ar d.arcount with
          | none => simp [hr3] at h
          | some r3 =>
            obtain ⟨ar', m3⟩ := r3
            rw [hr3] at h
            simp only at h
            by_cases hm : (m1 || m2 || m3) = true
            · rw [if_pos hm] at h
              simp only [Option.some.injEq, Prod.mk.injEq] at h
              obtain ⟨hp', _⟩ := h
              refine ⟨d, an', ns', ar', m1, m2, m3, rfl, hq, hr1, hr2, hr3, hm, ?_⟩
              rw [← hp']
              rfl
            · simp only [Bool.not_eq_true] at hm
              rw [hm] at h
              simp at h
    · rw [if_neg hq] at h
      simp at h

theorem processPacket_false (new_ip : String) (p p' : Packet)
    (h : processPacket new_ip p = some (p', false)) : p' = p := by
  cases hp : p.dns with
  | none =>
    simp only [processPacket, hp, Option.some.injEq, Prod.mk.injEq] at h
    exact h.1.symm
  | some d =>
    simp only [processPacket, hp] at h
    by_cases hq : (d.qr == 1) = true
    · rw [if_pos hq] at h
      cases hr1 : fix_section new_ip d.an d.ancount with
      | none => simp [hr1] at h
      | some r1 =>
        obtain ⟨an', m1⟩ := r1
        rw [hr1] at h
        simp only at h
        cases hr2 : fix_section new_ip d.ns d.nscount with
        | none => simp [hr2] at h
        | some r2 =>
          obtain ⟨ns', m2⟩ := r2
          rw [hr2] at h
          simp only at h
          cases hr3 : fix_section new_ip d.ar d.arcount with
          | none => simp [hr3] at h
          | some r3 =>
            obtain ⟨ar', m3⟩ := r3
            rw [hr3] at h
            simp only at h
            by_cases hm : (m1 || m2 || m3) = true
            · rw [if_pos hm] at h
              simp at h
            · simp only [Bool.not_eq_true] at hm
              rw [hm] at h
              simp only [Bool.false_eq_true, if_false, Option.some.injEq,
                Prod.mk.injEq] at h
              exact h.1.symm
    · rw [if_neg hq] at h
      simp only [Option.some.injEq, Prod.mk.injEq] at h
      exact h.1.symm

theorem clearIP_map_idem (o : Option IPLayer) :
    (o.map clearIP).map clearIP = o.map clearIP := by
  cases o <;> rfl

theorem clearUDP_map_idem (o : Option UDPLayer) :
    (o.map clearUDP).map clearUDP = o.map clearUDP := by
  cases o <;> rfl

theorem processPacket_idem (new_ip : String) (p p' : Packet) (b : Bool)
    (h : processPacket new_ip p = some (p', b)) :
    processPacket new_ip p' = some (p', b) := by
  cases b with
  | false =>
    have hpp := processPacket_false new_ip p p' h
    subst hpp
    exact h
  | true =>
    obtain ⟨d, an', ns', ar', m1, m2, m3, hp, hq, hr1, hr2, hr3, hm, hp'⟩ :=
      processPacket_modified new_ip p p' h
    subst hp'
    simp only [processPacket, hq, if_true,
      fix_section_idem new_ip d.an d.ancount an' m1 hr1,
      fix_section_idem new_ip d.ns d.nscount ns' m2 hr2,
      fix_section_idem new_ip d.ar d.arcount ar' m3 hr3, hm]
    cases hip : p.ip <;> cases hud : p.udp <;>
      simp [clearIP, clearUDP]

theorem modify_list_corr (new_ip : String) :
    ∀ (pkts out : List Packet), modify_list new_ip pkts = some out →
      out.length = pkts.length ∧ corresponds new_ip pkts out := by
  intro pkts
  induction pkts with
  | nil =>
    intro out h
    simp only [modify_list, Option.some.injEq] at h
    subst h
    exact ⟨rfl, trivial⟩
  | cons p rest ih =>
    intro out h
    simp only [modify_list] at h
    cases hr : processPacket new_ip p with
    | none => rw [hr] at h; simp at h
    | some pr =>
      obtain ⟨p', b⟩ := pr
      rw [hr] at h
      simp only at h
      cases hrest : modify_list new_ip rest with
      | none => rw [hrest] at h; simp at h
      | some out' =>
        rw [hrest] at h
        simp only [Option.some.injEq] at h
        subst h
        obtain ⟨hl, hc⟩ := ih out' hrest
        constructor
        · simp [hl]
        · show (processPacket new_ip p).map Prod.fst = some p' ∧
            corresponds new_ip rest out'
          exact ⟨by simp [hr], hc⟩

theorem modify_list_idem (new_ip : String) :
    ∀ (pkts out : List Packet), modify_list new_ip pkts = some out →
      modify_list new_ip out = some out := by
  intro pkts
  induction pkts with
  | nil =>
    intro out h
    simp only [modify_list, Option.some.injEq] at h
    subst h
    rfl
  | cons p rest ih =>
    intro out h
    simp only [modify_list] at h
    cases hr : processPacket new_ip p with
    | none => rw [hr] at h; simp at h
    | some pr =>
      obtain ⟨p', b⟩ := pr
      rw [hr] at h
      simp only at h
      cases hrest : modify_list new_ip rest with
      | none => rw [hrest] at h; simp at h
      | some out' =>
        rw [hrest] at h
        simp only [Option.some.injEq] at h
        subst h
        have h1 := processPacket_idem new_ip p p' b hr
        have h2 := ih out' hrest
        simp [modify_list, h1, h2]

/-!
The claims.
-/

/-- C1: for every well-formed DNS-response packet containing at least one
A record, the Rewriter modifies the packet and overwrites every A record's
`rdata` field (in all three sections) with the derived target address,
altering no non-A record. -/
theorem a_records_rewritten (new_ip : String) (p p' : Packet) (b : Bool)
    (hwf : packetWF p = true) (hresp : isResponse p = true) (hA : hasA p = true)
    (h : processPacket new_ip p = some (p', b)) :
    b = true ∧ recordsRewritten new_ip p p' := by
  rw [processPacket_wf new_ip p hwf, hresp, hA] at h
  simp only [Bool.and_self, if_true, Option.some.injEq, Prod.mk.injEq] at h
  obtain ⟨hp', hb⟩ := h
  subst hp'
  refine ⟨hb.symm, fun d d' hd hd' => ?_⟩
  simp only [rewritePacket, hd, Option.map_some', Option.some.injEq] at hd'
  subst hd'
  exact ⟨sectionRewritten_map new_ip d.an, sectionRewritten_map new_ip d.ns,
    sectionRewritten_map new_ip d.ar⟩

/-- Witness for C1 at the sample DNS response. -/
theorem a_records_rewritten_witness :
    true = true ∧ recordsRewritten target_ip samplePkt (rewritePacket target_ip samplePkt) :=
  a_records_rewritten target_ip samplePkt (rewritePacket target_ip samplePkt) true
    (by decide) (by decide) (by decide) (by decide)

/-- C2: `convert_sciper_to_ip` is a pure function that on `"377690"`
returns `"00.37.76.90"`, and on every input string agrees with the
spec-side `derive_address`: the `00.`-prefixed join of the consecutive
2-character chunks (final chunk of 1 character when the length is odd). -/
theorem convert_sciper_matches_spec :
    convert_sciper_to_ip "377690" = "00.37.76.90" ∧
      ∀ s : String, convert_sciper_to_ip s = derive_address s := by
  constructor
  · decide
  · intro s
    show "00." ++ String.intercalate "."
        ((pyRange 0 s.length 2).map fun i => String.mk (pySlice s.data i 2)) =
      "00." ++ String.intercalate "." ((chunkPairs s.data).map String.mk)
    rw [← pyChunks_eq s.data, List.map_map]
    rfl

/-- C3: a well-formed packet is modified if and only if it is a DNS
response with at least one A record; every other packet is passed through
unchanged with the `modified` flag down. -/
theorem modified_iff_response_with_a (new_ip : String) (p : Packet)
    (hwf : packetWF p = true) :
    ((processPacket new_ip p).map Prod.snd = some true ↔
      isResponse p = true ∧ hasA p = true) ∧
    (¬(isResponse p = true ∧ hasA p = true) →
      processPacket new_ip p = some (p, false)) := by
  rw [processPacket_wf new_ip p hwf]
  by_cases hra : (isResponse p && hasA p) = true
  · rw [if_pos hra]
    simp only [Bool.and_eq_true] at hra
    exact ⟨by simp [hra], fun hc => absurd hra hc⟩
  · rw [if_neg hra]
    simp only [Bool.and_eq_true] at hra
    exact ⟨by simp [hra], fun _ => rfl⟩

/-- Witness for C3 at the sample DNS response. -/
theorem modified_iff_response_with_a_witness :
    ((processPacket target_ip samplePkt).map Prod.snd = some true ↔
      isResponse samplePkt = true ∧ hasA samplePkt = true) ∧
    (¬(isResponse samplePkt = true ∧ hasA samplePkt = true) →
      processPacket target_ip samplePkt = some (samplePkt, false)) :=
  modified_iff_response_with_a target_ip samplePkt (by decide)

/-- C4: a packet that is not a DNS response, or a well-formed DNS response
with zero A records in all three sections, comes out identical to the
input packet (all fields, timestamp included). -/
theorem passthrough_unchanged (new_ip : String) (p : Packet)
    (h : isResponse p = false ∨ (packetWF p = true ∧ hasA p = false)) :
    processPacket new_ip p = some (p, false) := by
  cases h with
  | inl h => exact processPacket_pass new_ip p h
  | inr h =>
    obtain ⟨hwf, hA⟩ := h
    rw [processPacket_wf new_ip p hwf]
    simp [hA]

/-- Witness for C4 at the DNS query packet. -/
theorem passthrough_unchanged_witness :
    processPacket target_ip queryPkt = some (queryPkt, false) :=
  passthrough_unchanged target_ip queryPkt (Or.inl (by decide))

/-- C5: every packet the Rewriter modifies keeps its capture timestamp
exactly. -/
theorem modified_keeps_time (new_ip : String) (p p' : Packet)
    (h : processPacket new_ip p = some (p', true)) : p'.time = p.time := by
  obtain ⟨d, an', ns', ar', m1, m2, m3, hp, hq, hr1, hr2, hr3, hm, hp'⟩ :=
    processPacket_modified new_ip p p' h
  subst hp'
  rfl

/-- Witness for C5 at the sample DNS response. -/
theorem modified_keeps_time_witness :
    (rewritePacket target_ip samplePkt).time = samplePkt.time :=
  modified_keeps_time target_ip samplePkt (rewritePacket target_ip samplePkt) (by decide)

/-- C6: a successful run outputs exactly one packet per input packet, in
the original order: the Nth output packet is the processing result of the
Nth input packet. -/
theorem output_order_preserved (pkts out : List Packet)
    (h : modify_pcap pkts = some out) :
    out.length = pkts.length ∧ corresponds (convert_sciper_to_ip SCIPER) pkts out :=
  modify_list_corr (convert_sciper_to_ip SCIPER) pkts out h

/-- Witness for C6 on a two-packet capture. -/
theorem output_order_preserved_witness :
    ([rewritePacket target_ip samplePkt, plainPkt] : List Packet).length =
        ([samplePkt, plainPkt] : List Packet).length ∧
      corresponds (convert_sciper_to_ip SCIPER) [samplePkt, plainPkt]
        [rewritePacket target_ip samplePkt, plainPkt] :=
  output_order_preserved [samplePkt, plainPkt]
    [rewritePacket target_ip samplePkt, plainPkt] (by decide)

/-- C7: the Rewriter is idempotent: running it again (same identifier) on
the output of a successful run reproduces that output exactly. -/
theorem rewriter_idempotent (pkts out : List Packet)
    (h : modify_pcap pkts = some out) : modify_pcap out = some out :=
  modify_list_idem (convert_sciper_to_ip SCIPER) pkts out h

/-- Witness for C7 on a two-packet capture. -/
theorem rewriter_idempotent_witness :
    modify_pcap [rewritePacket target_ip samplePkt, plainPkt] =
      some [rewritePacket target_ip samplePkt, plainPkt] :=
  rewriter_idempotent [samplePkt, plainPkt]
    [rewritePacket target_ip samplePkt, plainPkt] (by decide)

/-- C8: `fix_section` iterates by the declared count; it performs only
in-range accesses (never reaching the out-of-range error branch) exactly
when the declared count is at most the number of parsed records. -/
theorem fix_section_safe (new_ip : String) (sec : List RR) (count : Nat) :
    count ≤ sec.length ↔ (fix_section new_ip sec count).isSome = true := by
  constructor
  · intro h
    rw [fix_section_spec new_ip sec count h]
    rfl
  · intro h
    by_contra hc
    rw [fix_section_overrun new_ip sec count (Nat.lt_of_not_le hc)] at h
    simp at h

/-- C9: the run is all-or-nothing: an output file exists only when loading
succeeded and every packet was processed, in which case every input packet
is reflected in the output in order; load errors produce no output. -/
theorem run_all_or_nothing (r : LoadResult) (out : List Packet)
    (h : runRewriter r = some out) :
    ∃ pkts, r = LoadResult.ok pkts ∧ out.length = pkts.length ∧
      corresponds (convert_sciper_to_ip SCIPER) pkts out := by
  cases r with
  | ok pkts =>
    exact ⟨pkts, rfl, (modify_list_corr _ pkts out h).1, (modify_list_corr _ pkts out h).2⟩
  | fileAccessError => simp [runRewriter] at h
  | parseError => simp [runRewriter] at h

/-- Witness for C9 on a one-packet capture. -/
theorem run_all_or_nothing_witness :
    ∃ pkts, LoadResult.ok [plainPkt] = LoadResult.ok pkts ∧
      ([plainPkt] : List Packet).length = pkts.length ∧
      corresponds (convert_sciper_to_ip SCIPER) pkts [plainPkt] :=
  run_all_or_nothing (LoadResult.ok [plainPkt]) [plainPkt] (by decide)

/-- C10: frame property of a modified packet: only the `rdata` fields of
A records within the declared counts change and the IP/UDP length and
checksum fields are deleted; timestamp, link-layer fields, IP addresses
and ttl, UDP ports, DNS flag/counts/question and all other records are
unchanged. -/
theorem modified_frame (new_ip : String) (p p' : Packet)
    (h : processPacket new_ip p = some (p', true)) :
    p'.time = p.time ∧ p'.link = p.link ∧
    p'.ip = p.ip.map clearIP ∧ p'.udp = p.udp.map clearUDP ∧
    ∃ d d', p.dns = some d ∧ p'.dns = some d' ∧
      d'.qr = d.qr ∧ d'.ancount = d.ancount ∧ d'.nscount = d.nscount ∧
      d'.arcount = d.arcount ∧ d'.qd = d.qd ∧ d'.flags = d.flags ∧
      sectionFrame new_ip d.ancount d.an d'.an ∧
      sectionFrame new_ip d.nscount d.ns d'.ns ∧
      sectionFrame new_ip d.arcount d.ar d'.ar := by
  obtain ⟨d, an', ns', ar', m1, m2, m3, hp, hq, hr1, hr2, hr3, hm, hp'⟩ :=
    processPacket_modified new_ip p p' h
  subst hp'
  exact ⟨rfl, rfl, rfl, rfl, d, _, hp, rfl, rfl, rfl, rfl, rfl, rfl, rfl,
    fix_section_frame new_ip d.an d.ancount an' m1 hr1,
    fix_section_frame new_ip d.ns d.nscount ns' m2 hr2,
    fix_section_frame new_ip d.ar d.arcount ar' m3 hr3⟩

/-- Witness for C10 at the sample DNS response. -/
theorem modified_frame_witness :
    (rewritePacket target_ip samplePkt).time = samplePkt.time ∧
    (rewritePacket target_ip samplePkt).link = samplePkt.link ∧
    (rewritePacket target_ip samplePkt).ip = samplePkt.ip.map clearIP ∧
    (rewritePacket target_ip samplePkt).udp = samplePkt.udp.map clearUDP ∧
    ∃ d d', samplePkt.dns = some d ∧ (rewritePacket target_ip samplePkt).dns = some d' ∧
      d'.qr = d.qr ∧ d'.ancount = d.ancount ∧ d'.nscount = d.nscount ∧
      d'.arcount = d.arcount ∧ d'.qd = d.qd ∧ d'.flags = d.flags ∧
      sectionFrame target_ip d.ancount d.an d'.an ∧
      sectionFrame target_ip d.nscount d.ns d'.ns ∧
      sectionFrame target_ip d.arcount d.ar d'.ar :=
  modified_frame target_ip samplePkt (rewritePacket target_ip samplePkt) (by decide)
